import Mathlib

/-!
Verification of the NYC historical-directory browser (`src/app.py`) against its
natural-language specification.

The repository ships a single Streamlit script.  Its directory store is a SQLite
table `directory` whose rows carry, besides the raw text fields, three columns
precomputed at ingest time (`is_high_quality`, `street_sort`, `house_sort`).
We embed:

* the string primitives used by the SQL layer (binary collation, case-insensitive
  `LIKE`, trimming, upper/lower casing restricted to ASCII as SQLite does);
* the WHERE-clause built for the Search Ledger page and the `ORDER BY ... LIMIT 5000`
  data query, modelling a SQL sort as a stable insertion sort over rowid order;
* the analytics-page queries, each as a pure function of the table contents;
* the specified (but not shipped) normalizer module: `classify`,
  `parseAddressForSort` and `lastNameSortKey`, modelled from the spec.
-/

/-! ## Character helpers (ASCII, as used by SQLite NOCASE / UPPER / TRIM) -/

/-- Whitespace characters recognized by the Python regex class and `str.strip`
(restricted to ASCII): space, tab, newline, carriage return, vertical tab, form feed. -/
def isWsChar (c : Char) : Bool :=
  c.toNat = 32 || c.toNat = 9 || c.toNat = 10 || c.toNat = 13 || c.toNat = 11 || c.toNat = 12

def isDigitChar (c : Char) : Bool := 48 ≤ c.toNat && c.toNat ≤ 57

def isAsciiUpperChar (c : Char) : Bool := 65 ≤ c.toNat && c.toNat ≤ 90

def isAsciiLowerChar (c : Char) : Bool := 97 ≤ c.toNat && c.toNat ≤ 122

def isAsciiAlphaChar (c : Char) : Bool := isAsciiUpperChar c || isAsciiLowerChar c

/-- ASCII lowercasing (SQLite folds only A-Z for NOCASE / LIKE). -/
def lowerChar (c : Char) : Char :=
  if isAsciiUpperChar c then Char.ofNat (c.toNat + 32) else c

/-- ASCII uppercasing (SQLite `UPPER`). -/
def upperChar (c : Char) : Char :=
  if isAsciiLowerChar c then Char.ofNat (c.toNat - 32) else c

theorem char_eq_of_toNat_eq {a b : Char} (h : a.toNat = b.toNat) : a = b :=
  Char.eq_of_val_eq (UInt32.toNat.inj h)

/-! ## Binary lexicographic comparison of character lists

SQLite's default BINARY collation compares UTF-8 byte sequences; on UTF-8,
byte order coincides with code-point order, so we compare code points. -/

/-- Lexicographic `≤` on lists of characters by code point (SQLite BINARY collation). -/
def lexLe : List Char → List Char → Bool
  | [], _ => true
  | _ :: _, [] => false
  | a :: as, b :: bs =>
    if a.toNat < b.toNat then true
    else if b.toNat < a.toNat then false
    else lexLe as bs

theorem lexLe_refl (l : List Char) : lexLe l l = true := by
  induction l with
  | nil => rfl
  | cons a as ih => simp [lexLe, ih]

theorem lexLe_total (a b : List Char) : lexLe a b = true ∨ lexLe b a = true := by
  induction a generalizing b with
  | nil => left; rfl
  | cons x xs ih =>
    cases b with
    | nil => right; rfl
    | cons y ys =>
      by_cases hxy : x.toNat < y.toNat
      · left; simp [lexLe, hxy]
      · by_cases hyx : y.toNat < x.toNat
        · right; simp [lexLe, hyx]
        · rcases ih ys with h | h
          · left; simp [lexLe, hxy, hyx, h]
          · right; simp [lexLe, hxy, hyx, h]

theorem lexLe_trans {a b c : List Char}
    (hab : lexLe a b = true) (hbc : lexLe b c = true) : lexLe a c = true := by
  induction a generalizing b c with
  | nil => rfl
  | cons x xs ih =>
    cases b with
    | nil => simp [lexLe] at hab
    | cons y ys =>
      cases c with
      | nil => simp [lexLe] at hbc
      | cons z zs =>
        simp only [lexLe] at hab hbc ⊢
        by_cases hxy : x.toNat < y.toNat <;> by_cases hyz : y.toNat < z.toNat
        · have : x.toNat < z.toNat := Nat.lt_trans hxy hyz
          simp [this]
        · simp only [hyz, if_false] at hbc
          by_cases hzy : z.toNat < y.toNat
          · simp [hzy] at hbc
          · have hyz' : y.toNat = z.toNat := Nat.le_antisymm (Nat.le_of_not_lt hzy) (Nat.le_of_not_lt hyz)
            have : x.toNat < z.toNat := hyz' ▸ hxy
            simp [this]
        · simp only [hxy, if_false] at hab
          by_cases hyx : y.toNat < x.toNat
          · simp [hyx] at hab
          · have hxy' : x.toNat = y.toNat := Nat.le_antisymm (Nat.le_of_not_lt hyx) (Nat.le_of_not_lt hxy)
            have : x.toNat < z.toNat := hxy' ▸ hyz
            simp [this]
        · simp only [hxy, if_false] at hab
          simp only [hyz, if_false] at hbc
          by_cases hyx : y.toNat < x.toNat
          · simp [hyx] at hab
          · by_cases hzy : z.toNat < y.toNat
            · simp [hzy] at hbc
            · have hxy' : x.toNat = y.toNat := Nat.le_antisymm (Nat.le_of_not_lt hyx) (Nat.le_of_not_lt hxy)
              have hyz' : y.toNat = z.toNat := Nat.le_antisymm (Nat.le_of_not_lt hzy) (Nat.le_of_not_lt hyz)
              have hxz : ¬ x.toNat < z.toNat := by omega
              have hzx : ¬ z.toNat < x.toNat := by omega
              simp only [hxz, if_false, hzx, if_false]
              simp only [hyx, if_false] at hab
              simp only [hzy, if_false] at hbc
              exact ih hab hbc

theorem lexLe_antisymm {a b : List Char}
    (hab : lexLe a b = true) (hba : lexLe b a = true) : a = b := by
  induction a generalizing b with
  | nil =>
    cases b with
    | nil => rfl
    | cons y ys => simp [lexLe] at hba
  | cons x xs ih =>
    cases b with
    | nil => simp [lexLe] at hab
    | cons y ys =>
      simp only [lexLe] at hab hba
      by_cases hxy : x.toNat < y.toNat
      · have : ¬ y.toNat < x.toNat := by omega
        simp [this, hxy] at hba
      · by_cases hyx : y.toNat < x.toNat
        · simp [hxy, hyx] at hab
        · simp only [hxy, if_false, hyx, if_false] at hab hba
          have hx : x = y := char_eq_of_toNat_eq (Nat.le_antisymm (Nat.le_of_not_lt hyx) (Nat.le_of_not_lt hxy))
          rw [hx, ih hab hba]

/-- Binary-collation `≤` on strings. -/
def strLe (a b : String) : Bool := lexLe a.data b.data

/-! ## Stable sort (models SQL `ORDER BY` over rowid scan order) -/

def insertLe {α : Type} (le : α → α → Bool) (a : α) : List α → List α
  | [] => [a]
  | b :: l => if le a b then a :: b :: l else b :: insertLe le a l

def sortLe {α : Type} (le : α → α → Bool) : List α → List α
  | [] => []
  | a :: l => insertLe le a (sortLe le l)

theorem insertLe_perm {α : Type} (le : α → α → Bool) (a : α) (l : List α) :
    List.Perm (insertLe le a l) (a :: l) := by
  induction l with
  | nil => exact List.Perm.refl _
  | cons b l ih =>
    simp only [insertLe]
    split
    · exact List.Perm.refl _
    · exact (ih.cons b).trans (List.Perm.swap a b l)

theorem sortLe_perm {α : Type} (le : α → α → Bool) (l : List α) :
    List.Perm (sortLe le l) l := by
  induction l with
  | nil => exact List.Perm.refl _
  | cons a l ih => exact (insertLe_perm le a (sortLe le l)).trans (ih.cons a)

theorem mem_sortLe {α : Type} {le : α → α → Bool} {l : List α} {x : α} :
    x ∈ sortLe le l ↔ x ∈ l :=
  (sortLe_perm le l).mem_iff

theorem sorted_insertLe {α : Type} {le : α → α → Bool}
    (htot : ∀ a b, le a b = true ∨ le b a = true)
    (htrans : ∀ a b c, le a b = true → le b c = true → le a c = true)
    (a : α) {l : List α} (hl : l.Pairwise (fun x y => le x y = true)) :
    (insertLe le a l).Pairwise (fun x y => le x y = true) := by
  induction l with
  | nil => simp [insertLe]
  | cons b l ih =>
    rcases List.pairwise_cons.mp hl with ⟨hb, hl'⟩
    simp only [insertLe]
    split
    case isTrue hab =>
      refine List.pairwise_cons.mpr ⟨?_, hl⟩
      intro x hx
      rcases List.mem_cons.mp hx with rfl | hx'
      · exact hab
      · exact htrans a b x hab (hb x hx')
    case isFalse hab =>
      refine List.pairwise_cons.mpr ⟨?_, ih hl'⟩
      intro x hx
      rcases List.mem_cons.mp ((insertLe_perm le a l).mem_iff.mp hx) with rfl | hx'
      · rcases htot x b with h | h
        · exact absurd h hab
        · exact h
      · exact hb x hx'

theorem sorted_sortLe {α : Type} {le : α → α → Bool}
    (htot : ∀ a b, le a b = true ∨ le b a = true)
    (htrans : ∀ a b c, le a b = true → le b c = true → le a c = true)
    (l : List α) :
    (sortLe le l).Pairwise (fun x y => le x y = true) := by
  induction l with
  | nil => exact List.Pairwise.nil
  | cons a l ih => exact sorted_insertLe htot htrans a ih

/-- Stability of `insertLe`: filtering by a predicate that selects a single
equivalence class of `le` commutes with insertion. -/
theorem filter_insertLe {α : Type} {le : α → α → Bool} {p : α → Bool}
    (hcls : ∀ x y, p x = true → p y = true → le x y = true)
    (a : α) (l : List α) :
    (insertLe le a l).filter p = if p a then a :: l.filter p else l.filter p := by
  induction l with
  | nil =>
    simp only [insertLe, List.filter_cons, List.filter_nil]
  | cons b l ih =>
    simp only [insertLe]
    by_cases hab : le a b = true
    · simp only [hab, if_true, List.filter_cons]
    · simp only [hab, if_false, List.filter_cons]
      by_cases hpa : p a = true
      · have hpb : p b = false := by
          cases h : p b
          · rfl
          · exact absurd (hcls a b hpa h) hab
        simp [hpb, ih, hpa]
      · have hpa' : p a = false := by
          cases h : p a
          · rfl
          · exact absurd h hpa
        by_cases hpb : p b = true <;> simp [hpb, ih, hpa']

/-- Stability of `sortLe`: the subsequence of any single `le`-equivalence class
is unchanged by sorting. -/
theorem filter_sortLe {α : Type} {le : α → α → Bool} {p : α → Bool}
    (hcls : ∀ x y, p x = true → p y = true → le x y = true)
    (l : List α) :
    (sortLe le l).filter p = l.filter p := by
  induction l with
  | nil => rfl
  | cons a l ih =>
    simp only [sortLe, filter_insertLe hcls, ih, List.filter_cons]

/-! ## Lexicographic combination of orders -/

/-- Lexicographic combination: compare first components; on equality fall back
to the second-component order. -/
def pairLe {α β : Type} [DecidableEq α] (ltA : α → α → Bool) (leB : β → β → Bool)
    (x y : α × β) : Bool :=
  if x.1 = y.1 then leB x.2 y.2 else ltA x.1 y.1

theorem pairLe_refl {α β : Type} [DecidableEq α] {ltA : α → α → Bool} {leB : β → β → Bool}
    (hB : ∀ b, leB b b = true) (x : α × β) : pairLe ltA leB x x = true := by
  simp [pairLe, hB]

theorem pairLe_total {α β : Type} [DecidableEq α] {ltA : α → α → Bool} {leB : β → β → Bool}
    (hlt : ∀ a b : α, a ≠ b → ltA a b = true ∨ ltA b a = true)
    (hB : ∀ x y, leB x y = true ∨ leB y x = true) :
    ∀ x y, pairLe ltA leB x y = true ∨ pairLe ltA leB y x = true := by
  intro x y
  by_cases h : x.1 = y.1
  · have h' : y.1 = x.1 := h.symm
    simp only [pairLe, if_pos h, if_pos h']
    exact hB x.2 y.2
  · simp only [pairLe, if_neg h, if_neg (Ne.symm h)]
    exact hlt x.1 y.1 h

theorem pairLe_trans {α β : Type} [DecidableEq α] {ltA : α → α → Bool} {leB : β → β → Bool}
    (hirr : ∀ a : α, ltA a a = false)
    (hltt : ∀ a b c : α, ltA a b = true → ltA b c = true → ltA a c = true)
    (hBt : ∀ x y z, leB x y = true → leB y z = true → leB x z = true) :
    ∀ x y z, pairLe ltA leB x y = true → pairLe ltA leB y z = true →
      pairLe ltA leB x z = true := by
  intro x y z hxy hyz
  by_cases h1 : x.1 = y.1 <;> by_cases h2 : y.1 = z.1
  · have h3 : x.1 = z.1 := h1.trans h2
    simp only [pairLe, h1, if_true, h2, h3] at hxy hyz ⊢
    exact hBt _ _ _ hxy hyz
  · have h3 : x.1 ≠ z.1 := fun h => h2 (h1.symm.trans h)
    simp only [pairLe, h1, if_true, h2, if_false, h3] at hxy hyz ⊢
    exact hyz
  · have h3 : x.1 ≠ z.1 := fun h => h1 (h.trans h2.symm)
    simp only [pairLe, h1, if_false, h2, if_true, h3] at hxy hyz ⊢
    exact hxy
  · simp only [pairLe, h1, if_false, h2] at hxy hyz
    by_cases h3 : x.1 = z.1
    · exfalso
      rw [h3] at hxy
      have h4 := hltt _ _ _ hxy hyz
      rw [hirr] at h4
      simp at h4
    · simp only [pairLe, h3, if_false]
      exact hltt _ _ _ hxy hyz

/-- Strict order on `Nat` as a boolean. -/
def natLtB (a b : Nat) : Bool := decide (a < b)

/-- `≤` on `Nat` as a boolean. -/
def natLeB (a b : Nat) : Bool := decide (a ≤ b)

/-- Strict binary-collation order on character lists. -/
def lexLt (a b : List Char) : Bool := !(lexLe b a)

theorem lexLt_irrefl (a : List Char) : lexLt a a = false := by
  simp [lexLt, lexLe_refl]

theorem lexLt_trans {a b c : List Char}
    (hab : lexLt a b = true) (hbc : lexLt b c = true) : lexLt a c = true := by
  simp only [lexLt, Bool.not_eq_true'] at hab hbc ⊢
  cases hca : lexLe c a
  · rfl
  · exfalso
    rcases lexLe_total a b with h | h
    · have h' := lexLe_trans hca h
      rw [h'] at hbc
      simp at hbc
    · rw [h] at hab
      simp at hab

theorem lexLt_total_ne {a b : List Char} (h : a ≠ b) :
    lexLt a b = true ∨ lexLt b a = true := by
  simp only [lexLt, Bool.not_eq_true']
  cases hba : lexLe b a
  · left; rfl
  · cases hab : lexLe a b
    · right; rfl
    · exact absurd (lexLe_antisymm hab hba) h

/-! ## Data model

`DirectoryRecord` is the raw row as described by the spec; `Row` is a stored row
of the SQLite `directory` table as used by `src/app.py`, which additionally
carries the ingest-time columns `is_high_quality`, `street_sort`, `house_sort`. -/

structure DirectoryRecord where
  last_name : String
  first_name : String
  occupation : String
  business_address : String
  home_address : String
  year : Nat
  publisher : String
  printed_page : String
deriving DecidableEq, Repr

structure Row where
  last_name : String
  first_name : String
  occupation : String
  business_address : String
  home_address : String
  year : Nat
  publisher : String
  printed_page : String
  is_high_quality : Bool
  street_sort : String
  house_sort : Nat
deriving DecidableEq, Repr

def Row.toRecord (r : Row) : DirectoryRecord :=
  { last_name := r.last_name, first_name := r.first_name, occupation := r.occupation
    business_address := r.business_address, home_address := r.home_address
    year := r.year, publisher := r.publisher, printed_page := r.printed_page }

/-! ## SQLite `LIKE` (case-insensitive for ASCII) -/

/-- Does the predicate hold of some suffix of the list? -/
def suffixAny (f : List Char → Bool) : List Char → Bool
  | [] => f []
  | c :: s' => f (c :: s') || suffixAny f s'

/-- SQLite `LIKE` pattern matching: `%` matches any sequence (the rest of the
pattern must match some suffix), `_` any single character, other characters
match case-insensitively (ASCII folding). -/
def likeMatch : List Char → List Char → Bool
  | [], s => s.isEmpty
  | c :: ps, s =>
    if c = '%' then
      suffixAny (likeMatch ps) s
    else
      match s with
      | [] => false
      | d :: s' => (if c = '_' then true else lowerChar c = lowerChar d) && likeMatch ps s'

/-- The predicate `col LIKE '%q%'` as issued by the ledger page. -/
def likeContains (q s : String) : Bool :=
  likeMatch ('%' :: (q.data ++ ['%'])) s.data

/-! ## Search-ledger WHERE clause (`src/app.py`, `where`) -/

structure Filters where
  years : List Nat
  qual_tgl : Bool
  name_q : String
  occ_q : String
  addr_q : String
deriving DecidableEq, Repr

/-- The column expression of the name clause:
`last_name || ' ' || first_name || ' ' || first_name || ' ' || last_name`. -/
def nameBlob (r : Row) : String :=
  r.last_name ++ " " ++ r.first_name ++ " " ++ r.first_name ++ " " ++ r.last_name

/-- The column expression of the address clause:
`business_address || ' ' || home_address`. -/
def addrBlob (r : Row) : String :=
  r.business_address ++ " " ++ r.home_address

/-- A row satisfies the WHERE clause built by the Search Ledger page:
`year IN (...)`, optionally `is_high_quality = 1`, and a case-insensitive
`LIKE '%...%'` clause for each non-empty filter string. -/
def rowMatches (f : Filters) (r : Row) : Bool :=
  decide (r.year ∈ f.years)
  && (!f.qual_tgl || r.is_high_quality)
  && (f.name_q.data.isEmpty || likeContains f.name_q (nameBlob r))
  && (f.occ_q.data.isEmpty || likeContains f.occ_q r.occupation)
  && (f.addr_q.data.isEmpty || likeContains f.addr_q (addrBlob r))

/-! ## Search-ledger data query (`sql_data`) -/

/-- The `ORDER BY year ASC, street_sort ASC, house_sort ASC, last_name ASC`
key of the data query, over the stored columns, with BINARY collation. -/
def rowKey (r : Row) : Nat × (List Char × (Nat × List Char)) :=
  (r.year, (r.street_sort.data, (r.house_sort, r.last_name.data)))

def key4Le : Nat × (List Char × (Nat × List Char)) →
    Nat × (List Char × (Nat × List Char)) → Bool :=
  pairLe natLtB (pairLe lexLt (pairLe natLtB lexLe))

def rowLe (a b : Row) : Bool := key4Le (rowKey a) (rowKey b)

/-- Rows delivered for table display: the filtered rows in rowid order, sorted
by the `ORDER BY` key, truncated by `LIMIT 5000`. -/
def sql_data_rows (db : List Row) (f : Filters) : List Row :=
  (sortLe rowLe (db.filter (rowMatches f))).take 5000

/-- The `SELECT COUNT(*) ... ` total over the same WHERE clause. -/
def total_count (db : List Row) (f : Filters) : Nat :=
  (db.filter (rowMatches f)).length

/-! ## The normalizer module (spec section 4)

The repository's ingest script, which computes the stored columns, is not part
of `src/`; only its outputs (`is_high_quality`, `street_sort`, `house_sort`)
and the spec's contracts for it are visible.  The following definitions are
modelled from the spec. -/

/-- Trim leading and trailing whitespace from a character list. -/
def trimWs (l : List Char) : List Char :=
  ((l.dropWhile isWsChar).reverse.dropWhile isWsChar).reverse

/-- Numeric value of a digit run (empty run yields 0). -/
def digitsVal (l : List Char) : Nat :=
  l.foldl (fun n c => 10 * n + (c.toNat - 48)) 0

/-- Modelled from the spec: step 2 of `parseAddressForSort` (section 4.2) —
strip a leading case-insensitive `r.` or `rear` prefix together with optional
trailing whitespace.  The extractor itself is absent from `src/`. -/
def stripRear (l : List Char) : List Char :=
  let low := l.map lowerChar
  if low.take 2 = ['r', '.'] then (l.drop 2).dropWhile isWsChar
  else if low.take 4 = ['r', 'e', 'a', 'r'] then (l.drop 4).dropWhile isWsChar
  else l

/-- Modelled from the spec: `parseAddressForSort` (section 4.2), absent from
`src/`.  Blank input yields the sentinel pair; otherwise the rear prefix is
stripped, a leading digit run becomes the house number (0 if none), and the
lowercased trimmed remainder becomes the street name, with the sentinel
substituted when it is empty. -/
def parseAddressForSort : Option String → String × Nat
  | none => ("~~~~", 999999)
  | some a =>
    if a.data.all isWsChar then ("~~~~", 999999)
    else
      let rest := stripRear a.data
      let house := digitsVal (rest.takeWhile isDigitChar)
      let street := trimWs ((rest.dropWhile isDigitChar).map lowerChar)
      (if street.isEmpty then "~~~~" else String.mk street, house)

/-- Modelled from the spec: `lastNameSortKey` (section 4.4), absent from
`src/` — lowercased trimmed last name, sentinel when blank. -/
def lastNameSortKey (lastName : String) : String :=
  if lastName.data.all isWsChar then "~~~~"
  else String.mk (trimWs (lastName.data.map lowerChar))

/-- Characters permitted by the illegal-symbol check of `classify`
(section 4.1, condition 2): letters, digits, whitespace, `.`, `,` and the
apostrophe (code 39). -/
def allowedChar (c : Char) : Bool :=
  isAsciiAlphaChar c || isDigitChar c || isWsChar c ||
    c.toNat = 46 || c.toNat = 44 || c.toNat = 39

/-- Matching of the anchored regex `^\d+\s+\d+\s+` (split house number). -/
def splitNumTest (l : List Char) : Bool :=
  let d1 := l.takeWhile isDigitChar
  let r1 := l.dropWhile isDigitChar
  let w1 := r1.takeWhile isWsChar
  let r2 := r1.dropWhile isWsChar
  let d2 := r2.takeWhile isDigitChar
  let r3 := r2.dropWhile isDigitChar
  !d1.isEmpty && !w1.isEmpty && !d2.isEmpty &&
    (match r3 with
     | c :: _ => isWsChar c
     | [] => false)

/-- Whitespace-delimited tokens of a character list (empty tokens dropped). -/
def splitWsAux : List Char → List Char → List (List Char)
  | [], cur => if cur.isEmpty then [] else [cur.reverse]
  | c :: rest, cur =>
    if isWsChar c then
      if cur.isEmpty then splitWsAux rest []
      else cur.reverse :: splitWsAux rest []
    else splitWsAux rest (c :: cur)

def splitWs (l : List Char) : List (List Char) := splitWsAux l []

def isVowelChar (c : Char) : Bool :=
  c = 'a' || c = 'e' || c = 'i' || c = 'o' || c = 'u' || c = 'y'

/-- A gibberish token (section 4.1, condition 3): longer than 4 characters,
entirely alphabetic, and containing no vowel `a, e, i, o, u, y`. -/
def gibberishToken (t : List Char) : Bool :=
  decide (4 < t.length) && t.all isAsciiAlphaChar && !(t.any isVowelChar)

/-- The space-joined concatenation of the five text fields, in spec order. -/
def classifyBlob (r : DirectoryRecord) : String :=
  r.last_name ++ " " ++ r.first_name ++ " " ++ r.occupation ++ " " ++
    r.business_address ++ " " ++ r.home_address

/-- Modelled from the spec: `classify` (section 4.1), absent from `src/`.
Returns `false` when a split house number, an illegal symbol or a gibberish
token is present, else `true`. -/
def classify (r : DirectoryRecord) : Bool :=
  !(splitNumTest r.business_address.data
    || splitNumTest r.home_address.data
    || (classifyBlob r).data.any (fun c => !allowedChar c)
    || (splitWs ((classifyBlob r).data.map lowerChar)).any gibberishToken)

/-! ## `get_valid_years` and the page top-level flow (`src/app.py`) -/

/-- Number of rows of a given year (`COUNT(*)` within a `GROUP BY year` group). -/
def countYear (db : List Row) (y : Nat) : Nat :=
  (db.filter (fun r => r.year == y)).length

/-- `get_valid_years`: distinct years with at least `threshold` rows, ascending;
`none` models a database error caught by the bare `except`, yielding `[]`. -/
def get_valid_years (threshold : Nat) (db : Option (List Row)) : List Nat :=
  match db with
  | none => []
  | some rows =>
    sortLe natLeB
      (((rows.map Row.year).dedup).filter (fun y => decide (threshold ≤ countYear rows y)))

/-! ## Analytics-page queries (`src/app.py`, page "Historical Analytics") -/

/-- SQL `TRIM` (spaces only). -/
def trimSpaces (l : List Char) : List Char :=
  ((l.dropWhile (fun c => c == ' ')).reverse.dropWhile (fun c => c == ' ')).reverse

/-- SQL `UPPER(TRIM(x))` used to merge near-duplicate labels. -/
def upperTrim (s : String) : String :=
  String.mk ((trimSpaces s.data).map upperChar)

/-- `GROUP BY k` with `COUNT(*)`: one entry per distinct key, in first-seen order. -/
def groupCounts (key : Row → String) (rows : List Row) : List (String × Nat) :=
  ((rows.map key).dedup).map
    (fun k => (k, (rows.filter (fun r => key r == k)).length))

/-- `ORDER BY Count DESC` on grouped output. -/
def countDesc (a b : String × Nat) : Bool := decide (b.2 ≤ a.2)

/-- Total volume chart: `SELECT year, COUNT(*) ... GROUP BY year ORDER BY year`. -/
def growth_counts (db : List Row) : List (Nat × Nat) :=
  (sortLe natLeB (db.map Row.year).dedup).map (fun y => (y, countYear db y))

/-- Occupation rows admitted by the Top Occupations query for one year. -/
def occQualifies (r : Row) : Bool :=
  !r.occupation.isEmpty && !(likeContains ("widow") r.occupation) && r.is_high_quality

/-- Top Occupations: grouped by `UPPER(TRIM(occupation))`, count descending, top 15. -/
def top_occupations (y : Nat) (db : List Row) : List (String × Nat) :=
  (sortLe countDesc
    (groupCounts (fun r => upperTrim r.occupation)
      (db.filter (fun r => r.year == y && occQualifies r)))).take 15

/-- Per-year maximal group count (the `RANK() = 1` threshold). -/
def maxCount (g : List (String × Nat)) : Nat :=
  g.foldl (fun m p => max m p.2) 0

/-- Top Job Evolution: for each year ascending, the rank-1 trades with counts. -/
def occ_evolution (db : List Row) : List (Nat × String × Nat) :=
  (sortLe natLeB ((db.filter occQualifies).map Row.year).dedup).flatMap
    (fun y =>
      let g := groupCounts (fun r => upperTrim r.occupation)
        (db.filter (fun r => r.year == y && occQualifies r))
      (g.filter (fun p => p.2 == maxCount g)).map (fun p => (y, p.1, p.2)))

/-- Street rows admitted by the Busiest Streets query: the stored street key is
not the blank-address sentinel `zzzzz`. -/
def streetQualifies (r : Row) : Bool := r.street_sort != "zzzzz"

/-- Busiest Streets: grouped by `UPPER(TRIM(street_sort))`, count descending, top 15. -/
def busiest_streets (y : Nat) (db : List Row) : List (String × Nat) :=
  (sortLe countDesc
    (groupCounts (fun r => upperTrim r.street_sort)
      (db.filter (fun r => r.year == y && streetQualifies r)))).take 15

/-- Busiest Street Evolution: for each year ascending, the rank-1 streets. -/
def street_evolution (db : List Row) : List (Nat × String × Nat) :=
  (sortLe natLeB ((db.filter streetQualifies).map Row.year).dedup).flatMap
    (fun y =>
      let g := groupCounts (fun r => upperTrim r.street_sort)
        (db.filter (fun r => r.year == y && streetQualifies r))
      (g.filter (fun p => p.2 == maxCount g)).map (fun p => (y, p.1, p.2)))

/-- Trade Mapping: streets of one year for rows whose occupation matches
`LIKE '%trade%'`, grouped, count descending, top 15. -/
def trade_map (y : Nat) (tradeQ : String) (db : List Row) : List (String × Nat) :=
  (sortLe countDesc
    (groupCounts (fun r => upperTrim r.street_sort)
      (db.filter (fun r =>
        r.year == y && likeContains tradeQ r.occupation && streetQualifies r)))).take 15

/-! ## Page rendering -/

inductive Page where
  | searchLedger : Page
  | historicalAnalytics : Page
deriving DecidableEq, Repr

structure LedgerOutput where
  chart : List (Nat × Nat)
  total : Nat
  rows : List Row
deriving DecidableEq, Repr

structure AnalyticsInputs where
  occYear : Nat
  streetYear : Nat
  mapYear : Nat
  tradeQ : String
deriving DecidableEq, Repr

structure AnalyticsOutput where
  growth : List (Nat × Nat)
  topOcc : List (String × Nat)
  occEvo : List (Nat × String × Nat)
  streets : List (String × Nat)
  streetEvo : List (Nat × String × Nat)
  tradeMap : List (String × Nat)
deriving DecidableEq, Repr

inductive AppView where
  | noVolumesWarning : AppView
  | selectYearsInfo : AppView
  | ledgerView : LedgerOutput → AppView
  | analyticsView : AnalyticsOutput → AppView
deriving DecidableEq, Repr

/-- Search-result density chart: counts over the available-year timeline,
zero-filled where the filtered query returns no group. -/
def chart_counts (avail : List Nat) (db : List Row) (f : Filters) : List (Nat × Nat) :=
  avail.map (fun y => (y, ((db.filter (rowMatches f)).filter (fun r => r.year == y)).length))

def run_ledger (avail : List Nat) (db : List Row) (f : Filters) : LedgerOutput :=
  { chart := chart_counts avail db f
    total := total_count db f
    rows := sql_data_rows db f }

def run_analytics (db : List Row) (a : AnalyticsInputs) : AnalyticsOutput :=
  { growth := growth_counts db
    topOcc := top_occupations a.occYear db
    occEvo := occ_evolution db
    streets := busiest_streets a.streetYear db
    streetEvo := street_evolution db
    tradeMap := trade_map a.mapYear a.tradeQ db }

/-- Top-level control flow of `src/app.py`: stop with a warning when no valid
years exist, stop with an info message when the year multiselect is empty,
otherwise render the selected page. -/
def app_view (db : Option (List Row)) (page : Page) (f : Filters)
    (a : AnalyticsInputs) : AppView :=
  let years := get_valid_years 1000 db
  if years.isEmpty then AppView.noVolumesWarning
  else
    match db, page with
    | none, _ => AppView.noVolumesWarning
    | some rows, Page.searchLedger =>
      if f.years.isEmpty then AppView.selectYearsInfo
      else AppView.ledgerView (run_ledger years rows f)
    | some rows, Page.historicalAnalytics =>
      AppView.analyticsView (run_analytics rows a)

/-- One full page interaction together with the directory store it leaves
behind: every statement issued by `src/app.py` is a `SELECT` (the embedding of
each interaction above is a pure function of the table), so the table is
returned unchanged. -/
def app_step (db : List Row) (page : Page) (f : Filters)
    (a : AnalyticsInputs) : AppView × List Row :=
  (app_view (some db) page f a, db)

/-! ## Derived keys and auxiliary predicates used to state the claims -/

/-- The address a record is displayed under (`CASE WHEN home_address != ''
THEN home_address ELSE business_address END`). -/
def recAddress (r : DirectoryRecord) : String :=
  if r.home_address.isEmpty then r.business_address else r.home_address

/-- The spec's composite sort key of a record (section 4.5, 4-key form):
`(year, streetName, houseNumber, lastNameKey)`. -/
def recSortKey (r : DirectoryRecord) : Nat × (List Char × (Nat × List Char)) :=
  ((r.year),
    ((parseAddressForSort (some (recAddress r))).1.data,
      ((parseAddressForSort (some (recAddress r))).2,
        (lastNameSortKey r.last_name).data)))

/-- Ascending comparison of records by the spec's composite key. -/
def recLe (a b : DirectoryRecord) : Bool := key4Le (recSortKey a) (recSortKey b)

/-- The composite key the claim attributes to the displayed table: year and the
derived street/house keys together with `lastNameSortKey`. -/
def claimKey (r : Row) : Nat × (List Char × (Nat × List Char)) :=
  ((r.year),
    ((parseAddressForSort (some (recAddress r.toRecord))).1.data,
      ((parseAddressForSort (some (recAddress r.toRecord))).2,
        (lastNameSortKey r.last_name).data)))

def claimKeyLe (a b : Row) : Bool := key4Le (claimKey a) (claimKey b)

/-- A list is ascending under a boolean comparison. -/
def ascendingBy {α : Type} (le : α → α → Bool) : List α → Bool
  | [] => true
  | [_] => true
  | a :: b :: l => le a b && ascendingBy le (b :: l)

/-- The non-blank record sorts strictly below the blank-address sentinel pair
`("~~~~", 999999)` on the (street, house) components. -/
def belowSentinelPair (r : DirectoryRecord) : Bool :=
  let p := parseAddressForSort (some (recAddress r))
  lexLt p.1.data ("~~~~").data || (p.1 == "~~~~" && decide (p.2 < 999999))

/-- A filter string free of the SQL `LIKE` wildcards `%` and `_`. -/
def noWildcard (q : String) : Bool :=
  q.data.all (fun c => !(c == '%') && !(c == '_'))

/-- Case-insensitive substring occurrence (ASCII folding), the reading the
claims give to the `LIKE '%q%' COLLATE NOCASE` predicates. -/
abbrev occursCI (q s : String) : Prop :=
  (q.data.map lowerChar) <:+: (s.data.map lowerChar)

/-! ## Concrete sample data for witnesses and counterexamples -/

def mkRow (ln fn occ ba ha : String) (y : Nat) (hq : Bool) (ss : String)
    (hs : Nat) : Row :=
  { last_name := ln, first_name := fn, occupation := occ, business_address := ba,
    home_address := ha, year := y, publisher := "Doggett", printed_page := "1",
    is_high_quality := hq, street_sort := ss, house_sort := hs }

/-- Two rows identical except for the raw last names `apple` / `Banana`. -/
def rowApple : Row := mkRow ("apple") ("Ann") ("grocer") ("") ("") 1850 true ("zzzzz") 999999

def rowBanana : Row := mkRow ("Banana") ("Bob") ("smith") ("") ("") 1850 true ("zzzzz") 999999

/-- A stored row whose text is OCR noise (`classify` rejects it) and whose
stored quality flag is `false`. -/
def badRow : Row := mkRow ("Xqzpfv") ("John") ("grocer") ("") ("") 1850 false ("zzzzz") 999999

/-- A stored row whose text is OCR noise (`classify` rejects it) but whose
stored quality flag is `true`. -/
def mislabeledRow : Row := mkRow ("Xqzpfv") ("John") ("grocer") ("") ("") 1850 true ("zzzzz") 999999

/-- A clean stored row with quality flag `true`. -/
def goodRow : Row := mkRow ("Smith") ("John") ("grocer") ("12 Duane") ("") 1850 true ("duane") 12

/-- A row whose occupation matches the wildcard filter `x_z` without containing
it as a substring. -/
def rowXyz : Row := mkRow ("Smith") ("John") ("xyz") ("") ("") 1850 true ("duane") 12

/-- All 1850 rows, quality toggle off, no text filters. -/
def fAllYears : Filters :=
  { years := [1850], qual_tgl := false, name_q := "", occ_q := "", addr_q := "" }

/-- All 1850 rows, quality toggle on, no text filters. -/
def fHighQuality : Filters :=
  { years := [1850], qual_tgl := true, name_q := "", occ_q := "", addr_q := "" }

/-- Occupation filter containing the `LIKE` wildcard `_`. -/
def fWildcard : Filters :=
  { years := [1850], qual_tgl := false, name_q := "", occ_q := "x_z", addr_q := "" }

def sampleInputs : AnalyticsInputs :=
  { occYear := 1850, streetYear := 1850, mapYear := 1850, tradeQ := "Merchant" }

/-- A record with a blank address. -/
def recBlank : DirectoryRecord :=
  { last_name := "adams", first_name := "Amos", occupation := "grocer",
    business_address := "", home_address := "", year := 1850,
    publisher := "Doggett", printed_page := "1" }

/-- A record with the non-blank, digits-only address `999999`, whose derived
key collides with the blank-address sentinel pair. -/
def recNum : DirectoryRecord :=
  { last_name := "zimmer", first_name := "Zeno", occupation := "smith",
    business_address := "999999", home_address := "", year := 1850,
    publisher := "Doggett", printed_page := "1" }

/-- Same stored sort columns as `rowApple`, but noisy text fields. -/
def rowAppleNoisy : Row := mkRow ("apple") ("Qxzwpf") ("gr#cer") ("") ("") 1850 true ("zzzzz") 999999

/-- The gibberish record of the spec's test list (section 8). -/
def recXqzpfv : DirectoryRecord :=
  { last_name := "Xqzpfv", first_name := "", occupation := "",
    business_address := "", home_address := "", year := 1850,
    publisher := "", printed_page := "" }

/-- Occupation filter `grocer`, free of wildcards. -/
def fGrocer : Filters :=
  { years := [1850], qual_tgl := false, name_q := "", occ_q := "grocer", addr_q := "" }

/-! ## Order properties of the composite keys -/

theorem natLtB_irrefl (a : Nat) : natLtB a a = false := by
  simp [natLtB]

theorem natLtB_trans (a b c : Nat) :
    natLtB a b = true → natLtB b c = true → natLtB a c = true := by
  simp only [natLtB, decide_eq_true_eq]
  omega

theorem natLtB_total_ne (a b : Nat) (h : a ≠ b) :
    natLtB a b = true ∨ natLtB b a = true := by
  simp only [natLtB, decide_eq_true_eq]
  omega

theorem key4Le_refl (k : Nat × (List Char × (Nat × List Char))) :
    key4Le k k = true :=
  pairLe_refl
    (fun x => pairLe_refl (fun y => pairLe_refl (fun l => lexLe_refl l) y) x) k

theorem key4Le_total (a b : Nat × (List Char × (Nat × List Char))) :
    key4Le a b = true ∨ key4Le b a = true :=
  pairLe_total natLtB_total_ne
    (pairLe_total (fun _ _ h => lexLt_total_ne h)
      (pairLe_total natLtB_total_ne (fun x y => lexLe_total x y)))
    a b

theorem houseNameLe_trans : ∀ x y z : Nat × List Char,
    pairLe natLtB lexLe x y = true → pairLe natLtB lexLe y z = true →
      pairLe natLtB lexLe x z = true :=
  pairLe_trans natLtB_irrefl natLtB_trans (fun _ _ _ hab hbc => lexLe_trans hab hbc)

theorem streetLe_trans : ∀ x y z : List Char × (Nat × List Char),
    pairLe lexLt (pairLe natLtB lexLe) x y = true →
      pairLe lexLt (pairLe natLtB lexLe) y z = true →
        pairLe lexLt (pairLe natLtB lexLe) x z = true :=
  pairLe_trans lexLt_irrefl (fun _ _ _ hab hbc => lexLt_trans hab hbc) houseNameLe_trans

theorem key4Le_trans (a b c : Nat × (List Char × (Nat × List Char))) :
    key4Le a b = true → key4Le b c = true → key4Le a c = true :=
  pairLe_trans natLtB_irrefl natLtB_trans streetLe_trans a b c

theorem rowLe_total (a b : Row) : rowLe a b = true ∨ rowLe b a = true :=
  key4Le_total (rowKey a) (rowKey b)

theorem rowLe_trans (a b c : Row) :
    rowLe a b = true → rowLe b c = true → rowLe a c = true :=
  key4Le_trans (rowKey a) (rowKey b) (rowKey c)

theorem recLe_total (a b : DirectoryRecord) : recLe a b = true ∨ recLe b a = true :=
  key4Le_total (recSortKey a) (recSortKey b)

theorem recLe_trans (a b c : DirectoryRecord) :
    recLe a b = true → recLe b c = true → recLe a c = true :=
  key4Le_trans (recSortKey a) (recSortKey b) (recSortKey c)

/-! ## Claims -/

/-- C6: `parseAddressForSort` returns the sentinel pair `("~~~~", 999999)` on
empty/null/whitespace-only input; otherwise it strips an optional
case-insensitive leading `r.` or `rear` prefix, takes the leading digit run as
the house number (0 when there is none, since the empty run has value 0), and
returns the lowercased trimmed remainder as the street name, substituting the
sentinel when that remainder is empty; in particular
`parseAddressForSort "r. 12 Duane" = ("duane", 12)`,
`parseAddressForSort "Rear 5 Pine" = ("pine", 5)` and
`parseAddressForSort "Broadway" = ("broadway", 0)`. -/
theorem C6_parseAddressForSort_contract :
    (parseAddressForSort none = ("~~~~", 999999))
    ∧ (∀ a : String, a.data.all isWsChar = true →
        parseAddressForSort (some a) = ("~~~~", 999999))
    ∧ (∀ a : String, a.data.all isWsChar = false →
        parseAddressForSort (some a) =
          ((if (trimWs (((stripRear a.data).dropWhile isDigitChar).map lowerChar)).isEmpty
            then "~~~~"
            else String.mk (trimWs (((stripRear a.data).dropWhile isDigitChar).map lowerChar))),
            digitsVal ((stripRear a.data).takeWhile isDigitChar)))
    ∧ digitsVal [] = 0
    ∧ parseAddressForSort (some "r. 12 Duane") = ("duane", 12)
    ∧ parseAddressForSort (some "Rear 5 Pine") = ("pine", 5)
    ∧ parseAddressForSort (some "Broadway") = ("broadway", 0) := by
  refine ⟨rfl, ?_, ?_, rfl, by decide, by decide, by decide⟩
  · intro a h
    simp [parseAddressForSort, h]
  · intro a h
    simp [parseAddressForSort, h]

/-- Witness for C6 at concrete inputs: a whitespace-only address and a
prefix-free, digit-free address. -/
theorem C6_witness :
    parseAddressForSort (some "  ") = ("~~~~", 999999)
    ∧ parseAddressForSort (some "Broadway") =
        ((if (trimWs (((stripRear ("Broadway").data).dropWhile isDigitChar).map lowerChar)).isEmpty
          then "~~~~"
          else String.mk (trimWs (((stripRear ("Broadway").data).dropWhile isDigitChar).map lowerChar))),
          digitsVal ((stripRear ("Broadway").data).takeWhile isDigitChar)) :=
  ⟨C6_parseAddressForSort_contract.2.1 ("  ") (by decide),
   C6_parseAddressForSort_contract.2.2.1 ("Broadway") (by decide)⟩

/-- C3: `classify` returns `false` exactly when one of the three failure
conditions holds — a split house number in either address, an illegal symbol in
the space-joined field concatenation, or a whitespace-delimited token of the
lowercased concatenation that is longer than four characters, entirely
alphabetic and vowel-free — and in particular rejects the record with last
name `Xqzpfv`. -/
theorem C3_classify_contract :
    (∀ r : DirectoryRecord,
      classify r = false ↔
        ((splitNumTest r.business_address.data = true
            ∨ splitNumTest r.home_address.data = true)
          ∨ (∃ c ∈ (classifyBlob r).data, allowedChar c = false)
          ∨ (∃ t ∈ splitWs ((classifyBlob r).data.map lowerChar), gibberishToken t = true)))
    ∧ classify recXqzpfv = false := by
  constructor
  · intro r
    simp only [classify, Bool.not_eq_false', Bool.or_eq_true, List.any_eq_true,
      Bool.not_eq_true', or_assoc]
  · decide

/-- C10: the data query returns at most 5000 rows (`LIMIT 5000`) while the
count query reports the full number of WHERE-clause matches; when more than
5000 rows match, exactly 5000 are displayed, strictly fewer than the reported
total. -/
theorem C10_limit_vs_total (db : List Row) (f : Filters) :
    (sql_data_rows db f).length ≤ 5000
    ∧ total_count db f = (db.filter (rowMatches f)).length
    ∧ (5000 < total_count db f →
        (sql_data_rows db f).length = 5000
        ∧ (sql_data_rows db f).length < total_count db f) := by
  have hlen : (sortLe rowLe (db.filter (rowMatches f))).length = total_count db f :=
    (sortLe_perm rowLe (db.filter (rowMatches f))).length_eq
  have htake : (sql_data_rows db f).length
      = min 5000 (sortLe rowLe (db.filter (rowMatches f))).length := by
    simp [sql_data_rows, List.length_take]
  refine ⟨by omega, rfl, fun h => ⟨by omega, by omega⟩⟩

/-- Witness for C10 on a table of 5001 identical matching rows. -/
theorem C10_witness :
    5000 < total_count (List.replicate 5001 rowApple) fAllYears
    ∧ (sql_data_rows (List.replicate 5001 rowApple) fAllYears).length
        < total_count (List.replicate 5001 rowApple) fAllYears := by
  have hmatch : rowMatches fAllYears rowApple = true := by decide
  have htot : total_count (List.replicate 5001 rowApple) fAllYears = 5001 := by
    show ((List.replicate 5001 rowApple).filter (rowMatches fAllYears)).length = 5001
    rw [List.filter_replicate_of_pos hmatch, List.length_replicate]
  have h5 : 5000 < total_count (List.replicate 5001 rowApple) fAllYears := by omega
  exact ⟨h5, ((C10_limit_vs_total (List.replicate 5001 rowApple) fAllYears).2.2 h5).2⟩

/-- C8: no operation of the program writes to the directory store: both pages
are pure reads of the table, and a full page interaction leaves the table
unchanged while its rendered view is computed from the table contents alone. -/
theorem C8_read_only_store (db : List Row) (page : Page) (f : Filters)
    (a : AnalyticsInputs) :
    (app_step db page f a).2 = db
    ∧ (app_step db page f a).1 = app_view (some db) page f a :=
  ⟨rfl, rfl⟩

/-- C9: `get_valid_years` returns exactly the distinct years of the table with
at least `threshold` rows, in strictly ascending order; a database error (the
bare `except` branch) yields `[]`; and whenever the list is empty the app stops
at the warning without rendering either page. -/
theorem C9_get_valid_years_contract :
    (∀ (threshold : Nat) (db : List Row) (y : Nat),
      y ∈ get_valid_years threshold (some db) ↔
        (y ∈ db.map Row.year ∧ threshold ≤ countYear db y))
    ∧ (∀ (threshold : Nat) (db : List Row),
        (get_valid_years threshold (some db)).Pairwise (· < ·))
    ∧ (∀ threshold : Nat, get_valid_years threshold none = [])
    ∧ (∀ (db : Option (List Row)) (page : Page) (f : Filters) (a : AnalyticsInputs),
        get_valid_years 1000 db = [] →
          app_view db page f a = AppView.noVolumesWarning) := by
  refine ⟨?_, ?_, fun _ => rfl, ?_⟩
  · intro t db y
    simp [get_valid_years, mem_sortLe, List.mem_filter, List.mem_dedup,
      decide_eq_true_eq]
  · intro t db
    have hs : (sortLe natLeB
        (((db.map Row.year).dedup).filter (fun y => decide (t ≤ countYear db y)))).Pairwise
          (fun a b => natLeB a b = true) :=
      sorted_sortLe (fun a b => by simp only [natLeB, decide_eq_true_eq]; omega)
        (fun a b c h1 h2 => by
          simp only [natLeB, decide_eq_true_eq] at h1 h2 ⊢; omega) _
    have h1 : (((db.map Row.year).dedup).filter
        (fun y => decide (t ≤ countYear db y))).Nodup :=
      (List.nodup_dedup (db.map Row.year)).filter _
    have hnd : (sortLe natLeB
        (((db.map Row.year).dedup).filter (fun y => decide (t ≤ countYear db y)))).Nodup :=
      (sortLe_perm natLeB _).symm.nodup h1
    have hlt : (sortLe natLeB
        (((db.map Row.year).dedup).filter (fun y => decide (t ≤ countYear db y)))).Pairwise
          (fun a b : Nat => a < b) := by
      refine hs.imp₂ (fun a b hle hne => ?_) hnd
      simp only [natLeB, decide_eq_true_eq] at hle
      omega
    exact hlt
  · intro db page f a h
    simp [app_view, h]

/-- Witness for C9: a failing database yields the warning view. -/
theorem C9_witness :
    app_view none Page.searchLedger fAllYears sampleInputs = AppView.noVolumesWarning :=
  C9_get_valid_years_contract.2.2.2 none Page.searchLedger fAllYears sampleInputs rfl

/-- C5 (amended): the ledger applies the *stored* quality flag, and only when
the High-Quality toggle is on: every row delivered with the toggle on has
`is_high_quality = 1`. -/
theorem C5_quality_filter_stored_flag (db : List Row) (f : Filters) (r : Row)
    (hq : f.qual_tgl = true) (hr : r ∈ sql_data_rows db f) :
    r.is_high_quality = true := by
  have h1 : r ∈ sortLe rowLe (db.filter (rowMatches f)) := List.mem_of_mem_take hr
  have h2 : r ∈ db.filter (rowMatches f) := mem_sortLe.mp h1
  have h3 : rowMatches f r = true := (List.mem_filter.mp h2).2
  simp only [rowMatches, hq, Bool.and_eq_true, Bool.or_eq_true, Bool.not_true,
    Bool.false_or] at h3
  exact h3.1.1.1.2

/-- Witness for C5 (amended) on a one-row table with the toggle on. -/
theorem C5_witness : goodRow.is_high_quality = true :=
  C5_quality_filter_stored_flag [goodRow] fHighQuality goodRow rfl (by decide)

/-- C5 counterexample: with the quality toggle off, the ledger delivers a row
that `classify` rejects — `classify` is not applied as a post-filter before
display. -/
theorem C5_counterexample :
    sql_data_rows [badRow] fAllYears = [badRow]
    ∧ classify badRow.toRecord = false := by
  decide

/-- C4 (amended): the classification and sort keys are persisted columns read
back by the queries, not recomputed: the ORDER BY key is a function of the
stored `year`, `street_sort`, `house_sort`, `last_name` columns alone, the
quality clause compares the stored flag when the toggle is on, and the
High-Quality view can deliver a row whose recomputed classification is
`false`. -/
theorem C4_persisted_classification :
    (∀ r s : Row, r.year = s.year → r.street_sort = s.street_sort →
      r.house_sort = s.house_sort → r.last_name = s.last_name →
      rowKey r = rowKey s)
    ∧ (∀ (f : Filters) (r : Row), f.qual_tgl = true →
        (!f.qual_tgl || r.is_high_quality) = r.is_high_quality)
    ∧ ¬ (∀ r : Row, r ∈ sql_data_rows [mislabeledRow] fHighQuality →
          classify r.toRecord = true) := by
  refine ⟨?_, ?_, ?_⟩
  · intro r s h1 h2 h3 h4
    simp [rowKey, h1, h2, h3, h4]
  · intro f r hq
    simp [hq]
  · intro h
    have h2 := h mislabeledRow (by decide)
    exact absurd h2 (by decide)

/-- Witness for C4 (amended): two rows with equal stored sort columns but
different text fields share the ORDER BY key, and the toggle-on quality clause
equals the stored flag. -/
theorem C4_witness :
    rowKey rowApple = rowKey rowAppleNoisy
    ∧ (!fHighQuality.qual_tgl || rowApple.is_high_quality) = rowApple.is_high_quality :=
  ⟨C4_persisted_classification.1 rowApple rowAppleNoisy rfl rfl rfl rfl,
   C4_persisted_classification.2.1 fHighQuality rowApple rfl⟩

/-- C4 counterexample: the High-Quality view delivers a stored row whose
persisted flag is `true` although recomputing `classify` on its fields yields
`false`: the classification is read from storage, never recomputed per
query. -/
theorem C4_counterexample :
    sql_data_rows [mislabeledRow] fHighQuality = [mislabeledRow]
    ∧ mislabeledRow.is_high_quality = true
    ∧ classify mislabeledRow.toRecord = false := by
  decide

/-- C1 (amended): the rows delivered for table display are ordered ascending on
the stored-column key `(year, street_sort, house_sort, last_name)` with
`last_name` compared raw under BINARY collation (not lowercased, trimmed or
sentinel-mapped), and the sort is stable: within each equal-key class the
delivered subsequence is an initial segment (initial because of `LIMIT 5000`)
of that class in stored order. -/
theorem C1_table_order_stored_key (db : List Row) (f : Filters) :
    (sql_data_rows db f).Pairwise (fun x y => rowLe x y = true)
    ∧ (∀ k : Nat × (List Char × (Nat × List Char)),
        (sql_data_rows db f).filter (fun r => rowKey r == k)
          <+: (db.filter (rowMatches f)).filter (fun r => rowKey r == k)) := by
  constructor
  · have hs : (sortLe rowLe (db.filter (rowMatches f))).Pairwise
        (fun x y => rowLe x y = true) :=
      sorted_sortLe rowLe_total rowLe_trans _
    exact List.Pairwise.sublist (List.take_sublist 5000 _) hs
  · intro k
    have hcls : ∀ x y : Row,
        (rowKey x == k) = true → (rowKey y == k) = true → rowLe x y = true := by
      intro x y hx hy
      have hx' : rowKey x = k := by simpa using hx
      have hy' : rowKey y = k := by simpa using hy
      show key4Le (rowKey x) (rowKey y) = true
      rw [hx', hy']
      exact key4Le_refl k
    have hstab := filter_sortLe hcls (db.filter (rowMatches f))
    have hpre : (sql_data_rows db f).filter (fun r => rowKey r == k)
        <+: (sortLe rowLe (db.filter (rowMatches f))).filter (fun r => rowKey r == k) :=
      List.IsPrefix.filter _ ( List.take_prefix 5000 _)
    rw [hstab] at hpre
    exact hpre

/-- C1 counterexample: two delivered rows agreeing on year, both addresses and
the stored sort columns, with raw last names `apple` and `Banana`, are
delivered in raw BINARY order `Banana, apple`; that order is not ascending on
the claim's composite key, whose last component is the lowercased trimmed
`lastNameSortKey`. -/
theorem C1_counterexample :
    sql_data_rows [rowApple, rowBanana] fAllYears = [rowBanana, rowApple]
    ∧ ascendingBy claimKeyLe (sql_data_rows [rowApple, rowBanana] fAllYears) = false := by
  decide

/-- C2 (amended): for every blank (empty/null/whitespace-only) address the
derived street key is the sentinel `"~~~~"`, which sorts after every street
name whose characters all lie below `~` (code 126) — in particular after every
lowercased letter/digit/space street name; and sorting records by the
composite key places every blank-address record after every same-year
non-blank record whose parsed (street, house) pair is strictly below the
sentinel pair `("~~~~", 999999)`.  (Digits-only addresses parsing to house
number at least 999999 share or exceed the sentinel pair and are the
exception.) -/
theorem C2_blank_address_sentinel :
    (∀ a : String, a.data.all isWsChar = true →
        parseAddressForSort (some a) = ("~~~~", 999999))
    ∧ (∀ s : List Char, (∀ c ∈ s, c.toNat < 126) →
        lexLt s (("~~~~").data) = true)
    ∧ (∀ l : List DirectoryRecord,
        (sortLe recLe l).Pairwise (fun x y =>
          (recAddress x).data.all isWsChar = true →
          x.year = y.year →
          belowSentinelPair y = true → False)) := by
  refine ⟨?_, ?_, ?_⟩
  · intro a h
    simp [parseAddressForSort, h]
  · intro s h
    cases s with
    | nil => decide
    | cons c cs =>
      have h4 : ("~~~~").data = '~' :: ['~', '~', '~'] := rfl
      rw [h4]
      have hc : c.toNat < 126 := h c (List.mem_cons_self c cs)
      have h5 : ¬ ('~'.toNat < c.toNat) := by
        have h6 : '~'.toNat = 126 := rfl
        omega
      have h6 : c.toNat < '~'.toNat := by
        have h7 : '~'.toNat = 126 := rfl
        omega
      simp only [lexLt, lexLe, h5, h6, if_false, if_true, Bool.not_eq_true']
  · intro l
    refine (sorted_sortLe recLe_total recLe_trans l).imp ?_
    intro x y hxy hblank hyear hbelow
    have hpx : parseAddressForSort (some (recAddress x)) = ("~~~~", 999999) := by
      simp [parseAddressForSort, hblank]
    rcases hpy : parseAddressForSort (some (recAddress y)) with ⟨sy, ny⟩
    have hkx : recSortKey x
        = (x.year, ((("~~~~") : String).data, (999999, (lastNameSortKey x.last_name).data))) := by
      simp [recSortKey, hpx]
    have hky : recSortKey y
        = (y.year, (sy.data, (ny, (lastNameSortKey y.last_name).data))) := by
      simp [recSortKey, hpy]
    simp only [belowSentinelPair, hpy, Bool.or_eq_true, Bool.and_eq_true, beq_iff_eq,
      decide_eq_true_eq] at hbelow
    have hfalse : recLe x y = false := by
      show key4Le (recSortKey x) (recSortKey y) = false
      rw [hkx, hky, hyear]
      simp only [key4Le, pairLe]
      rcases hbelow with hlt | ⟨hse, hny⟩
      · have hne : ¬ ((['~', '~', '~', '~'] : List Char) = sy.data) := by
          intro he
          rw [he] at hlt
          rw [lexLt_irrefl] at hlt
          exact absurd hlt (by simp)
        have hltf : lexLt (['~', '~', '~', '~'] : List Char) sy.data = false := by
          cases hv : lexLt (['~', '~', '~', '~'] : List Char) sy.data
          · rfl
          · have h8 := lexLt_trans hlt hv
            rw [lexLt_irrefl] at h8
            exact absurd h8 (by simp)
        simp [hne, hltf]
      · have hd : (("~~~~") : String).data = ['~', '~', '~', '~'] := rfl
        have hne9 : ¬ ((999999 : Nat) = ny) := by omega
        simp [hse, hd, hne9, natLtB]
        omega
    rw [hfalse] at hxy
    exact absurd hxy (by simp)

/-- Witness for C2 (amended): the empty address yields the sentinel pair and a
one-letter street sorts before the sentinel. -/
theorem C2_witness :
    parseAddressForSort (some "") = ("~~~~", 999999)
    ∧ lexLt (['d']) (("~~~~").data) = true :=
  ⟨C2_blank_address_sentinel.1 ("") (by decide),
   C2_blank_address_sentinel.2.1 ['d'] (by decide)⟩

/-- C2 counterexample: sorting by the composite key leaves the blank-address
record `recBlank` *before* the same-year non-blank record `recNum` whose
digits-only address `999999` parses to the sentinel street with house number
999999, because the tie is broken by the last-name key. -/
theorem C2_counterexample :
    sortLe recLe [recBlank, recNum] = [recBlank, recNum]
    ∧ (recAddress recBlank).data.all isWsChar = true
    ∧ (recAddress recNum).data.all isWsChar = false
    ∧ recBlank.year = recNum.year := by
  decide

/-! ## `LIKE` patterns versus case-insensitive substring occurrence -/

theorem suffixAny_iff (f : List Char → Bool) (s : List Char) :
    suffixAny f s = true ↔ ∃ t, t <:+ s ∧ f t = true := by
  induction s with
  | nil =>
    simp only [suffixAny]
    constructor
    · intro h
      exact ⟨[], List.suffix_refl [], h⟩
    · rintro ⟨t, ht, hm⟩
      rw [List.suffix_nil.mp ht] at hm
      exact hm
  | cons d s' ih =>
    simp only [suffixAny, Bool.or_eq_true]
    constructor
    · rintro (h | h)
      · exact ⟨d :: s', List.suffix_refl _, h⟩
      · rcases ih.mp h with ⟨t, ht, hm⟩
        exact ⟨t, ht.trans (List.suffix_cons d s'), hm⟩
    · rintro ⟨t, ht, hm⟩
      rcases List.suffix_cons_iff.mp ht with rfl | ht'
      · exact Or.inl hm
      · exact Or.inr (ih.mpr ⟨t, ht', hm⟩)

theorem likeMatch_pct (p : List Char) (s : List Char) :
    likeMatch ('%' :: p) s = suffixAny (likeMatch p) s := by
  simp [likeMatch]

theorem likeMatch_lit_nil (c : Char) (ps : List Char) (h1 : ¬ c = '%') :
    likeMatch (c :: ps) [] = false := by
  simp [likeMatch, h1]

theorem likeMatch_lit_cons (c : Char) (ps : List Char) (d : Char) (s' : List Char)
    (h1 : ¬ c = '%') (h2 : ¬ c = '_') :
    likeMatch (c :: ps) (d :: s') = (decide (lowerChar c = lowerChar d) && likeMatch ps s') := by
  simp [likeMatch, h1, h2]

theorem likeMatch_percent (p : List Char) (s : List Char) :
    likeMatch ('%' :: p) s = true ↔ ∃ t, t <:+ s ∧ likeMatch p t = true := by
  rw [likeMatch_pct]
  exact suffixAny_iff (likeMatch p) s

theorem likeMatch_only_percent (t : List Char) : likeMatch ['%'] t = true := by
  rw [likeMatch_pct]
  induction t with
  | nil => rfl
  | cons c t' ih =>
    simp only [suffixAny, Bool.or_eq_true]
    exact Or.inr ih

/-- A wildcard-free pattern followed by `%` matches exactly the strings whose
case-folding it prefixes. -/
theorem likeMatch_append_percent (q : List Char)
    (hq : q.all (fun c => !(c == '%') && !(c == '_')) = true) :
    ∀ t : List Char,
      (likeMatch (q ++ ['%']) t = true ↔ (q.map lowerChar) <+: (t.map lowerChar)) := by
  induction q with
  | nil =>
    intro t
    simp only [List.nil_append, List.map_nil]
    exact ⟨fun _ => List.nil_prefix, fun _ => likeMatch_only_percent t⟩
  | cons c q' ih =>
    have hc : (!(c == '%') && !(c == '_')) = true :=
      (List.all_eq_true.mp hq) c (List.mem_cons_self c q')
    have hc1 : ¬ (c = '%') := by
      intro h
      rw [h] at hc
      simp at hc
    have hc2 : ¬ (c = '_') := by
      intro h
      rw [h] at hc
      simp at hc
    have hq' : q'.all (fun c => !(c == '%') && !(c == '_')) = true := by
      rw [List.all_cons] at hq
      simp only [Bool.and_eq_true] at hq
      exact hq.2
    intro t
    cases t with
    | nil =>
      rw [List.cons_append, likeMatch_lit_nil c (q' ++ ['%']) hc1]
      simp
    | cons d t' =>
      rw [List.cons_append, likeMatch_lit_cons c (q' ++ ['%']) d t' hc1 hc2]
      simp only [List.map_cons, Bool.and_eq_true, decide_eq_true_eq, List.cons_prefix_cons]
      constructor
      · rintro ⟨h1, h2⟩
        exact ⟨h1, (ih hq' t').mp h2⟩
      · rintro ⟨h1, h2⟩
        exact ⟨h1, (ih hq' t').mpr h2⟩

/-- A suffix of a mapped list is the image of a suffix. -/
theorem suffix_of_map_suffix {f : Char → Char} {u : List Char} {l : List Char}
    (h : u <:+ l.map f) : ∃ t, t <:+ l ∧ t.map f = u := by
  rcases h with ⟨w, hw⟩
  rcases List.map_eq_append_iff.mp hw.symm with ⟨l₁, l₂, hl, h1, h2⟩
  exact ⟨l₂, ⟨l₁, hl.symm⟩, h2⟩

/-- The ledger's `LIKE '%q%' COLLATE NOCASE` predicate coincides, for
wildcard-free `q`, with case-insensitive substring occurrence. -/
theorem likeContains_iff (q s : String) (hq : noWildcard q = true) :
    likeContains q s = true ↔ occursCI q s := by
  rw [likeContains, likeMatch_percent]
  constructor
  · rintro ⟨t, ht, hm⟩
    have hp := (likeMatch_append_percent q.data hq t).mp hm
    exact List.infix_iff_prefix_suffix.mpr
      ⟨t.map lowerChar, hp, List.IsSuffix.map lowerChar ht⟩
  · intro h
    rcases List.infix_iff_prefix_suffix.mp h with ⟨u, hu, hsuf⟩
    rcases suffix_of_map_suffix hsuf with ⟨t, ht, rfl⟩
    exact ⟨t, ht, (likeMatch_append_percent q.data hq t).mpr hu⟩

/-- C7 (amended): for wildcard-free filter strings the WHERE clause selects a
row exactly when its year lies in the selected set, the optional stored-flag
clause holds, and each non-empty filter string occurs, ignoring ASCII case, as
a substring of the corresponding column expression (the doubled name
concatenation, the occupation, the concatenated addresses).  Filter strings
containing the SQL `LIKE` wildcards `%` or `_` are interpreted as patterns
instead, where this equivalence fails. -/
theorem C7_where_clause_semantics (f : Filters) (r : Row)
    (hn : noWildcard f.name_q = true) (ho : noWildcard f.occ_q = true)
    (ha : noWildcard f.addr_q = true) :
    rowMatches f r = true ↔
      (r.year ∈ f.years
        ∧ (f.qual_tgl = true → r.is_high_quality = true)
        ∧ (f.name_q ≠ "" → occursCI f.name_q (nameBlob r))
        ∧ (f.occ_q ≠ "" → occursCI f.occ_q r.occupation)
        ∧ (f.addr_q ≠ "" → occursCI f.addr_q (addrBlob r))) := by
  have hclause : ∀ (q s : String), noWildcard q = true →
      ((q.data.isEmpty || likeContains q s) = true ↔ (q ≠ "" → occursCI q s)) := by
    intro q s hw
    by_cases hq : q = ""
    · subst hq
      constructor
      · intro _ h
        exact absurd rfl h
      · intro _
        rfl
    · have hne : q.data.isEmpty = false := by
        cases hd : q.data with
        | nil => exact absurd (String.ext hd) hq
        | cons c cs => rfl
      rw [hne]
      simp only [Bool.false_or]
      rw [likeContains_iff q s hw]
      constructor
      · intro h _
        exact h
      · intro h
        exact h hq
  simp only [rowMatches, Bool.and_eq_true, decide_eq_true_eq]
  constructor
  · rintro ⟨⟨⟨⟨hy, hqual⟩, h1⟩, h2⟩, h3⟩
    refine ⟨hy, ?_, (hclause _ _ hn).mp h1, (hclause _ _ ho).mp h2, (hclause _ _ ha).mp h3⟩
    intro ht
    rw [ht] at hqual
    simpa using hqual
  · rintro ⟨hy, hqual, h1, h2, h3⟩
    refine ⟨⟨⟨⟨hy, ?_⟩, (hclause _ _ hn).mpr h1⟩, (hclause _ _ ho).mpr h2⟩,
      (hclause _ _ ha).mpr h3⟩
    cases hqt : f.qual_tgl
    · simp
    · simp [hqual hqt]

/-- Witness for C7 (amended) at the wildcard-free occupation filter `grocer`. -/
theorem C7_witness :
    rowMatches fGrocer goodRow = true ↔
      (goodRow.year ∈ fGrocer.years
        ∧ (fGrocer.qual_tgl = true → goodRow.is_high_quality = true)
        ∧ (fGrocer.name_q ≠ "" → occursCI fGrocer.name_q (nameBlob goodRow))
        ∧ (fGrocer.occ_q ≠ "" → occursCI fGrocer.occ_q goodRow.occupation)
        ∧ (fGrocer.addr_q ≠ "" → occursCI fGrocer.addr_q (addrBlob goodRow))) :=
  C7_where_clause_semantics fGrocer goodRow (by decide) (by decide) (by decide)

/-- C7 counterexample: the occupation filter `x_z` delivers the row whose
occupation is `xyz` although `x_z` does not occur, even ignoring case, as a
substring of `xyz` — the `_` is treated as a `LIKE` wildcard, not literally. -/
theorem C7_counterexample :
    sql_data_rows [rowXyz] fWildcard = [rowXyz]
    ∧ ¬ occursCI (("x_z") : String) rowXyz.occupation := by
  constructor
  · decide
  · decide
